import Mathlib

/-!
Verification of the github-dependents-search repository (src/src/index.ts).

The file shallowly embeds the two collector pipelines of the source:
`searchViemRepos` (GitHub code-search collector) and
`scrapeGitHubDependents` (dependents-page scraper), together with the
star-count parser `parseStarCount`.

Modelling conventions:
* JavaScript numbers are modelled exactly: finite values are rationals
  (`ℚ`), and the non-finite values `NaN` and `±Infinity` are explicit
  constructors of `JSNum`.  Decimal literals parsed by `parseFloat` are
  represented by their exact rational value (no double rounding); all
  concrete values appearing in the claims are unaffected by this choice.
* Strings are Lean `String`s; the JavaScript regular expression `\s`
  class and `String.prototype.trim` are modelled by the explicit
  whitespace-codepoint predicate `isJsWs`.  Case folding for the
  single-character checks `includes('k')` / `includes('m')` uses
  ASCII case folding (the exotic Kelvin-sign codepoint aside, this is
  exactly `toLowerCase` for those checks).
* The network, `cheerio` HTML parsing, and the file system are
  third-party effects outside the repository; they are modelled as
  environments: an environment maps a page number / URL / repository
  name to the response the mocked endpoint returns, and the HTML page
  is represented by the fields the source's selectors extract from it.
* `Array.prototype.sort(cmp)` (a stable sort in the engines Bun uses)
  is modelled by a stable insertion sort with the relation
  "cmp(a, b) ≤ 0".  For consistent comparators the stable sorted
  result is unique, so the model is observationally exact there; for
  inconsistent comparators (possible when a star count parses to NaN)
  ECMAScript leaves the order implementation-defined, and the model
  picks one definite permutation.
-/

/-- Codepoints matched by the JavaScript regular-expression class `\s`
(also the set trimmed by `String.prototype.trim`). -/
def isJsWs (c : Char) : Bool :=
  c.val == 0x09 || c.val == 0x0a || c.val == 0x0b || c.val == 0x0c ||
  c.val == 0x0d || c.val == 0x20 || c.val == 0xa0 || c.val == 0x1680 ||
  (0x2000 ≤ c.val && c.val ≤ 0x200a) || c.val == 0x2028 || c.val == 0x2029 ||
  c.val == 0x202f || c.val == 0x205f || c.val == 0x3000 || c.val == 0xfeff

/-- `starsText.replace(/[,\s]/g, '')` — drop every comma and whitespace
character. -/
def jsStripCommasWs (s : String) : String :=
  String.mk (s.data.filter (fun c => !(c == ',' || isJsWs c)))

/-- `String.prototype.trim`. -/
def jsTrim (s : String) : String :=
  String.mk (((s.data.dropWhile isJsWs).reverse.dropWhile isJsWs).reverse)

/-- A JavaScript number: `NaN`, `±Infinity`, or an (exactly represented)
finite value. -/
inductive JSNum : Type where
  | nan : JSNum
  | inf : Bool → JSNum    -- `inf true` is `+Infinity`, `inf false` is `-Infinity`
  | fin : ℚ → JSNum
deriving DecidableEq

/-- Whether a `JSNum` is a finite value. -/
def JSNum.isFin : JSNum → Bool
  | .fin _ => true
  | _ => false

/-- Multiplication of a JavaScript number by a positive finite constant
(the source multiplies only by 1000 and 1000000). -/
def JSNum.mulPos : JSNum → ℚ → JSNum
  | .nan, _ => .nan
  | .inf b, _ => .inf b
  | .fin q, k => .fin (q * k)

/-- `Math.round`: floor of x + 1/2 on finite values, identity on
`NaN` and `±Infinity`.  (`Rat.floor` is used rather than `⌊·⌋` so that
the definition evaluates by kernel reduction; they agree on `ℚ`.) -/
def JSNum.round : JSNum → JSNum
  | .nan => .nan
  | .inf b => .inf b
  | .fin q => .fin ((Rat.floor (q + mkRat 1 2) : ℤ) : ℚ)

/-- `x - y` on JavaScript numbers. -/
def JSNum.sub : JSNum → JSNum → JSNum
  | .nan, _ => .nan
  | _, .nan => .nan
  | .inf b, .inf c => if b = c then .nan else .inf b
  | .inf b, .fin _ => .inf b
  | .fin _, .inf b => .inf !b
  | .fin a, .fin c => .fin (a - c)

/-- `x <= 0` on JavaScript numbers (`NaN <= 0` is false). -/
def JSNum.nonPos : JSNum → Bool
  | .nan => false
  | .inf b => !b
  | .fin q => decide (q ≤ 0)

/-- The JavaScript comparison `x <= y` (false whenever either side is
`NaN`). -/
def JSNum.jsle : JSNum → JSNum → Bool
  | .nan, _ => false
  | _, .nan => false
  | .fin a, .fin b => decide (a ≤ b)
  | .inf b, .inf c => !b || c
  | .inf b, .fin _ => !b
  | .fin _, .inf c => c

/-- `s.toLowerCase().includes(c)` for a single character `c`: membership
of `c` among the lower-cased characters of `s`. -/
def containsLower (s : String) (c : Char) : Bool :=
  (s.data.map Char.toLower).contains c

/-- Numeric value of a list of decimal digit characters. -/
def digitsToNat (ds : List Char) : ℕ :=
  ds.foldl (fun a c => 10 * a + (c.toNat - 48)) 0

/-- Whether the optional leading sign is a minus. -/
def jsSignNeg : List Char → Bool
  | [] => false
  | c :: _ => c == '-'

/-- The characters after the optional leading sign. -/
def jsSignRest : List Char → List Char
  | [] => []
  | c :: t => if c == '-' || c == '+' then t else c :: t

/-- Fractional digits: the digits directly after a leading `'.'`. -/
def fracDigits : List Char → List Char
  | '.' :: t => t.takeWhile Char.isDigit
  | _ => []

/-- What remains after the optional `'.' digits` fragment. -/
def fracRest : List Char → List Char
  | '.' :: t => t.dropWhile Char.isDigit
  | cs => cs

/-- Value of an exponent fragment body: optional sign then digits;
`0` when no digit follows (the exponent is then not consumed). -/
def expSigned (cs : List Char) : ℤ :=
  let ds := (jsSignRest cs).takeWhile Char.isDigit
  if ds.isEmpty then 0
  else if jsSignNeg cs then -(digitsToNat ds : ℤ) else (digitsToNat ds : ℤ)

/-- Value of the optional `e`/`E` exponent fragment. -/
def expPart : List Char → ℤ
  | 'e' :: t => expSigned t
  | 'E' :: t => expSigned t
  | _ => 0

/-- The rational `10 ^ e` for an integer exponent `e`, via kernel-reducible
primitives. -/
def ratPow10 : ℤ → ℚ
  | Int.ofNat n => ((10 ^ n : ℕ) : ℚ)
  | Int.negSucc n => mkRat 1 (10 ^ (n + 1))

/-- The longest decimal-literal value at the head of the characters:
`digits [. digits] [e/E [sign] digits]`, requiring at least one digit
in the mantissa; `none` when there is none (`parseFloat` yields NaN).
The mantissa `intpart.fracpart` is the exact rational
`(intpart * 10 ^ len + fracpart) / 10 ^ len`. -/
def parseDec (cs : List Char) : Option ℚ :=
  let ints := cs.takeWhile Char.isDigit
  let r1 := cs.dropWhile Char.isDigit
  let fracs := fracDigits r1
  let r2 := fracRest r1
  if ints.isEmpty && fracs.isEmpty then none
  else
    some (mkRat ((digitsToNat ints : ℤ) * ((10 : ℕ) ^ fracs.length : ℕ) + (digitsToNat fracs : ℤ))
        ((10 : ℕ) ^ fracs.length) * ratPow10 (expPart r2))

/-- `parseFloat(s)`: skip leading whitespace, optional sign, then either
an `Infinity` literal or the longest decimal-literal value; NaN when
nothing numeric is found. -/
def jsParseFloat (s : String) : JSNum :=
  let cs := s.data.dropWhile isJsWs
  let cs2 := jsSignRest cs
  if cs2.take 8 = "Infinity".data then
    (if jsSignNeg cs then JSNum.inf false else JSNum.inf true)
  else
    match parseDec cs2 with
    | none => JSNum.nan
    | some q => JSNum.fin (if jsSignNeg cs then -q else q)

/-- `parseInt(s, 10)`: skip leading whitespace, optional sign, longest
run of decimal digits; NaN when there is no digit. -/
def jsParseInt (s : String) : JSNum :=
  let cs := s.data.dropWhile isJsWs
  let ds := (jsSignRest cs).takeWhile Char.isDigit
  if ds.isEmpty then JSNum.nan
  else JSNum.fin (if jsSignNeg cs then -(digitsToNat ds : ℚ) else (digitsToNat ds : ℚ))

/-- `parseStarCount` (src/src/index.ts, lines 351-364): strip commas and
whitespace; a cleaned string containing a case-insensitive `k` is parsed
with `parseFloat`, multiplied by 1000 and rounded; likewise `m` with
1000000; otherwise `parseInt`, with NaN replaced by 0. -/
def parseStarCount (starsText : String) : JSNum :=
  let cleaned := jsStripCommasWs starsText
  if containsLower cleaned 'k' then ((jsParseFloat cleaned).mulPos 1000).round
  else if containsLower cleaned 'm' then ((jsParseFloat cleaned).mulPos 1000000).round
  else
    match jsParseInt cleaned with
    | JSNum.nan => JSNum.fin 0
    | v => v

/-- `parseStarCount` as the specification words it (section 4.2 of the
spec): strip commas/whitespace; a case-insensitive `k` suffix means
"parse the numeric prefix as a float, multiply by 1,000, round to
nearest"; likewise `m` with 1,000,000; otherwise a plain integer; any
unparseable result yields 0.  This is the spec-side definition used for
the refinement comparison of claim C1; it is total into `ℚ`. -/
def parseStarCountSpecRule (s : String) : ℚ :=
  let cleaned := jsStripCommasWs s
  if containsLower cleaned 'k' then
    match jsParseFloat cleaned with
    | JSNum.fin q => ((Rat.floor (q * 1000 + mkRat 1 2) : ℤ) : ℚ)
    | _ => 0
  else if containsLower cleaned 'm' then
    match jsParseFloat cleaned with
    | JSNum.fin q => ((Rat.floor (q * 1000000 + mkRat 1 2) : ℤ) : ℚ)
    | _ => 0
  else
    match jsParseInt cleaned with
    | JSNum.fin q => q
    | _ => 0

/- ### The code-search collector (`searchViemRepos`, lines 65-212) -/

/-- One item of a code-search response page; the source reads only
`item.repository.full_name` from it. -/
structure CodeSearchItem where
  repository_full_name : String
deriving DecidableEq

/-- A mocked response of the paginated search endpoint. -/
structure PageResponse where
  ok : Bool
  status : ℕ
  statusText : String
  /-- `response.text()`, read when `ok` is false. -/
  body : String
  total_count : ℕ
  items : List CodeSearchItem
deriving DecidableEq

/-- The relevant fields of a repository-detail response
(`repoData`); `stargazers_count` is a JSON number, hence finite. -/
structure RepoData where
  name : String
  full_name : String
  description : Option String
  stargazers_count : ℚ
  html_url : String
  language : Option String
  created_at : String
  updated_at : String
deriving DecidableEq

/-- Outcome of one detail fetch: the fetch (or its JSON parse) threw,
the response was not ok, or it succeeded with a payload. -/
inductive DetailResult : Type where
  | thrown : DetailResult
  | notOk : DetailResult
  | okData : RepoData → DetailResult
deriving DecidableEq

/-- The environment of one collector run: the `GITHUB_TOKEN` variable
and the mocked responses of the two endpoints (page number ↦ search
response, repository full name ↦ detail outcome). -/
structure SearchEnv where
  github_token : Option String
  pages : ℕ → PageResponse
  detail : String → DetailResult

/-- `!process.env.GITHUB_TOKEN`: the variable is absent or empty. -/
def tokenMissing (env : SearchEnv) : Bool :=
  match env.github_token with
  | none => true
  | some s => s.data.isEmpty

/-- The output record of the collector (interface `GitHubRepo`). -/
structure GitHubRepo where
  name : String
  full_name : String
  description : Option String
  stars : ℚ
  url : String
  language : Option String
  created_at : String
  updated_at : String
deriving DecidableEq

/-- Mapping a detail response into an output record (lines 160-169). -/
def mkRepo (d : RepoData) : GitHubRepo :=
  { name := d.name
    full_name := d.full_name
    description := d.description
    stars := d.stargazers_count
    url := d.html_url
    language := d.language
    created_at := d.created_at
    updated_at := d.updated_at }

/-- `Set.prototype.add` on the insertion-ordered set of repository
names: append the name unless already present. -/
def setAdd (l : List String) (x : String) : List String :=
  if x ∈ l then l else l ++ [x]

/-- Adding every name of a page to the set, in order. -/
def setAddAll (l : List String) (xs : List String) : List String :=
  xs.foldl setAdd l

/-- The paging loop of the collector (lines 101-141), driven by the
remaining page budget: returns the pages requested, the set of distinct
repository names, and the status/statusText/body of the first
non-success response if one aborted the loop.  A page with fewer items
than `perPage` (100) ends the loop normally. -/
def runPages (env : SearchEnv) : ℕ → ℕ → List String → List ℕ →
    List ℕ × List String × Option (ℕ × String × String)
  | 0, _, names, reqs => (reqs, names, none)
  | fuel + 1, page, names, reqs =>
    let resp := env.pages page
    let reqs2 := reqs ++ [page]
    if resp.ok = false then (reqs2, names, some (resp.status, resp.statusText, resp.body))
    else
      let names2 := setAddAll names (resp.items.map CodeSearchItem.repository_full_name)
      if resp.items.length < 100 then (reqs2, names2, none)
      else runPages env fuel (page + 1) names2 reqs2

/-- The detail-fetch loop (lines 151-185): for each name in order, one
fetch; a thrown error is caught and logged, a non-ok response is
skipped, an ok response is pushed as a record.  Returns the records in
order and the list of names fetched. -/
def fetchDetails (env : SearchEnv) (names : List String) : List GitHubRepo × List String :=
  names.foldl
    (fun acc n =>
      match env.detail n with
      | DetailResult.okData d => (acc.1 ++ [mkRepo d], acc.2 ++ [n])
      | _ => (acc.1, acc.2 ++ [n]))
    ([], [])

/-- The record constructed by a successful detail fetch of `n`, if any. -/
def detailRec (env : SearchEnv) (n : String) : Option GitHubRepo :=
  match env.detail n with
  | DetailResult.okData d => some (mkRepo d)
  | _ => none

/-- The JavaScript comparator-based stable sort
`repositories.sort((a, b) => b.stars - a.stars)`, modelled as a stable
insertion sort keeping `a` before `b` when `cmp(a, b) <= 0`.  `key`
extracts the (JavaScript-number) sort key. -/
def starsCmpKeeps {α : Type} (key : α → JSNum) (a b : α) : Prop :=
  (JSNum.sub (key b) (key a)).nonPos = true

instance starsCmpKeepsDec {α : Type} (key : α → JSNum) : DecidableRel (starsCmpKeeps key) :=
  fun _ _ => inferInstanceAs (Decidable (_ = true))

/-- Stars-descending sort of a list of records. -/
def jsSortByStars {α : Type} (key : α → JSNum) (l : List α) : List α :=
  List.insertionSort (starsCmpKeeps key) l

/-- Observable trace of one collector run: page requests issued, detail
requests issued, the file contents written (`none` when no file is
written), the process exit code, and the fatal error message printed
before a non-zero exit, if any. -/
structure SearchTrace where
  pageRequests : List ℕ
  detailRequests : List String
  written : Option (List GitHubRepo)
  exitCode : ℕ
  fatalMsg : Option String
deriving DecidableEq

/-- The error message thrown on a non-success search response
(lines 108-110). -/
def searchErrMsg (st : ℕ) (stext body : String) : String :=
  "GitHub API error: " ++ Nat.repr st ++ " " ++ stext ++ "\n" ++ body

/-- The whole collector run `searchViemRepos` (lines 65-212): missing
token exits 1 before any request; a non-success page response throws,
is caught by the top-level handler, and exits 1 with nothing written;
otherwise detail records are fetched, sorted by stars descending, and
written to the output file. -/
def searchViemRepos (env : SearchEnv) : SearchTrace :=
  if tokenMissing env then
    { pageRequests := [], detailRequests := [], written := none, exitCode := 1, fatalMsg := none }
  else
    match runPages env 10 1 [] [] with
    | (reqs, _, some (st, stext, body)) =>
      { pageRequests := reqs, detailRequests := [], written := none, exitCode := 1
        fatalMsg := some (searchErrMsg st stext body) }
    | (reqs, names, none) =>
      let fd := fetchDetails env names
      { pageRequests := reqs, detailRequests := fd.2
        written := some (jsSortByStars (fun r => JSNum.fin r.stars) fd.1)
        exitCode := 0, fatalMsg := none }

/- ### The dependents-page scraper (`scrapeGitHubDependents`, lines 224-349) -/

/-- One `.Box-row` of a dependents page, represented by the text its
selectors extract: the `href` of the first repository hover-card link
(`none` when the link or its attribute is absent), and the raw text of
the description span, the star-icon sibling, and the language span. -/
structure RepoBox where
  repoHref : Option String
  descriptionText : String
  starsText : String
  languageText : String
deriving DecidableEq

/-- A dependents page, as seen through the source's selectors: its
repository boxes, the `href` of the "Next" control (`none` when the
control or its attribute is absent), and whether that control has the
`disabled` class. -/
structure PageHtml where
  boxes : List RepoBox
  nextHref : Option String
  nextDisabled : Bool
deriving DecidableEq

/-- A mocked response of one dependents-page fetch. -/
inductive FetchResult : Type where
  | thrown : FetchResult
  | httpError : ℕ → FetchResult
  | okPage : PageHtml → FetchResult
deriving DecidableEq

/-- Environment of a scraper run: URL ↦ response. -/
structure ScrapeEnv where
  fetch : String → FetchResult

/-- The output record of the scraper (interface `DependentRepo`). -/
structure DependentRepo where
  name : String
  full_name : String
  description : Option String
  stars : JSNum
  url : String
  language : Option String
deriving DecidableEq

/-- `href.replace('/', '')`: remove the first `'/'` only. -/
def removeFirstSlash : List Char → List Char
  | [] => []
  | c :: t => if c = '/' then t else c :: removeFirstSlash t

/-- JavaScript `split` on a single-character separator. -/
def splitOnChar (sep : Char) : List Char → List (List Char)
  | [] => [[]]
  | c :: t =>
    if c = sep then [] :: splitOnChar sep t
    else
      match splitOnChar sep t with
      | [] => [[c]]
      | h :: r => (c :: h) :: r

/-- `text.trim() || null`. -/
def trimOrNull (s : String) : Option String :=
  let t := jsTrim s
  if t.data.isEmpty then none else some t

/-- The `name` computation of the source (line 299, 301), as a function
of the full name: the second `split('/')` segment unless missing or
empty, in which case the whole full name (`name || fullName`). -/
def codeNameRule (fn : String) : String :=
  match (splitOnChar '/' fn.data).drop 1 with
  | [] => fn
  | n :: _ => if n.isEmpty then fn else String.mk n

/-- The full name derived from a box (line 284): the link's href with
its first `'/'` removed and trimmed; the empty string when the link or
its href is absent (`?.` and `|| ''`). -/
def boxFullName (box : RepoBox) : String :=
  match box.repoHref with
  | some h => jsTrim (String.mk (removeFirstSlash h.data))
  | none => ""

/-- Processing of one repository box (lines 276-312): a box whose full
name is empty is dropped; otherwise `url` is the GitHub URL of the full
name, `name` follows `codeNameRule` (`name || fullName`), and
description/language are trimmed-or-null. -/
def parseBox (box : RepoBox) : Option DependentRepo :=
  let fullName := boxFullName box
  if fullName.data.isEmpty then none
  else
    some
      { name := codeNameRule fullName
        full_name := fullName
        description := trimOrNull box.descriptionText
        stars := parseStarCount (jsTrim box.starsText)
        url := "https://github.com/" ++ fullName
        language := trimOrNull box.languageText }

/-- The `name` rule as claim C10 words it: the segment of the full name
between the first and second `'/'`, falling back to the whole full name
only when it contains no `'/'` (spec-side definition). -/
def claimNameRule (fn : String) : String :=
  if fn.data.contains '/' then
    match (splitOnChar '/' fn.data).drop 1 with
    | [] => ""
    | n :: _ => String.mk n
  else fn

/-- Resolving the "Next" href, which may be relative (lines 327-329):
`nextHref.startsWith('http')`. -/
def resolveNextUrl (h : String) : String :=
  match h.data with
  | 'h' :: 't' :: 't' :: 'p' :: _ => h
  | _ => "https://github.com" ++ h

/-- `currentPage <= maxPages`, where `none` models the default
`Infinity` cap. -/
def capOk (cap : Option ℕ) (page : ℕ) : Bool :=
  match cap with
  | none => true
  | some m => page ≤ m

/-- The scraping loop (lines 236-343), driven by explicit fuel (`none`
means the fuel ran out before the loop finished; the claims only
concern terminated runs).  Returns the accumulated records and the URLs
fetched.  A thrown fetch is caught and breaks the loop; a non-success
status breaks the loop; a page with zero boxes breaks the loop before
the next-link is consulted; an absent, empty or disabled "Next" control
ends the loop normally. -/
def scrapeLoop (env : ScrapeEnv) (cap : Option ℕ) :
    ℕ → ℕ → Option String → List DependentRepo → List String →
    Option (List DependentRepo × List String)
  | 0, _, _, _, _ => none
  | fuel + 1, page, urlOpt, acc, fs =>
    match urlOpt with
    | none => some (acc, fs)
    | some url =>
      if capOk cap page = false then some (acc, fs)
      else
        match env.fetch url with
        | FetchResult.thrown => some (acc, fs ++ [url])
        | FetchResult.httpError _ => some (acc, fs ++ [url])
        | FetchResult.okPage p =>
          let fs2 := fs ++ [url]
          if p.boxes.length = 0 then some (acc, fs2)
          else
            let acc2 := acc ++ p.boxes.filterMap parseBox
            match p.nextHref with
            | none => some (acc2, fs2)
            | some h =>
              if h.data.isEmpty || p.nextDisabled then some (acc2, fs2)
              else scrapeLoop env cap fuel (page + 1) (some (resolveNextUrl h)) acc2 fs2

/-- The dependents listing URL for `owner/repo` (line 229). -/
def dependentsUrl (owner repo : String) : String :=
  "https://github.com/" ++ owner ++ "/" ++ repo ++ "/network/dependents"

/-- The whole scraper run: the loop from page 1 at the base URL,
followed by the stars-descending sort (lines 345-346).  The first
component of the result is the sorted record list (what `main` writes
to the output file), the second the fetched URLs. -/
def scrapeGitHubDependents (env : ScrapeEnv) (owner repo : String) (cap : Option ℕ)
    (fuel : ℕ) : Option (List DependentRepo × List String) :=
  match scrapeLoop env cap fuel 1 (some (dependentsUrl owner repo)) [] [] with
  | none => none
  | some (acc, fs) => some (jsSortByStars DependentRepo.stars acc, fs)

/- ### Concrete mocked environments used by the witnesses and
counterexamples -/

/-- A repository box with the given link href and star text and empty
description/language text. -/
def boxB (href stars : String) : RepoBox :=
  { repoHref := some href, descriptionText := "", starsText := stars, languageText := "" }

/-- A scraper environment serving a single fixed page at the
`o`/`r` dependents URL. -/
def oneShotEnv (p : PageHtml) : ScrapeEnv :=
  ⟨fun url => if url = dependentsUrl "o" "r" then FetchResult.okPage p else FetchResult.thrown⟩

/-- A scraper environment serving `p1` at the `o`/`r` dependents URL and
`r2` at `https://github.com/p2`. -/
def twoShotEnv (p1 : PageHtml) (r2 : FetchResult) : ScrapeEnv :=
  ⟨fun url =>
    if url = dependentsUrl "o" "r" then FetchResult.okPage p1
    else if url = "https://github.com/p2" then r2
    else FetchResult.thrown⟩

/-- The terminal page of the C9 single-page scenario: two entries, no
Next control. -/
def pageC9a : PageHtml :=
  { boxes := [boxB "/o1/r1" "5", boxB "/o2/r2" "12"], nextHref := none, nextDisabled := false }

/-- Mock for C9 (terminal page): one page, two entries, no Next control. -/
def envC9a : ScrapeEnv :=
  oneShotEnv pageC9a

/-- Page 1 of the C9 empty-page scenario: one entry, linking to page 2. -/
def pageC9b1 : PageHtml :=
  { boxes := [boxB "/o1/r1" "5"], nextHref := some "/p2", nextDisabled := false }

/-- Page 2 of the C9 empty-page scenario: zero entries. -/
def pageC9b2 : PageHtml :=
  { boxes := [], nextHref := some "/p3", nextDisabled := false }

/-- Mock for C9 (empty page): page 1 with one entry linking to page 2,
page 2 with zero entries. -/
def envC9b : ScrapeEnv :=
  twoShotEnv pageC9b1 (FetchResult.okPage pageC9b2)

/-- Page 1 of the C8 scenario: two entries, linking to page 2. -/
def pageC8x1 : PageHtml :=
  { boxes := [boxB "/o1/r1" "1", boxB "/o2/r2" "3"], nextHref := some "/p2"
    nextDisabled := false }

/-- Mock for C8: page 1 with two entries linking to page 2, page 2
responding 500. -/
def envC8x : ScrapeEnv :=
  twoShotEnv pageC8x1 (FetchResult.httpError 500)

/-- Mock for the C2 counterexample: one page whose first entry has the
malformed star text `"k"` (parsing to NaN) and whose second has `"5"`. -/
def envC2x : ScrapeEnv :=
  oneShotEnv { boxes := [boxB "/a/b" "k", boxB "/c/d" "5"], nextHref := none
               nextDisabled := false }

/-- Mock for the C3 counterexample: one page listing the same
repository twice. -/
def envC3x : ScrapeEnv :=
  oneShotEnv { boxes := [boxB "/a/b" "7", boxB "/a/b" "7"], nextHref := none
               nextDisabled := false }

/-- Mock for the C4 counterexample: one page whose star text is `"-5"`. -/
def envC4x : ScrapeEnv :=
  oneShotEnv { boxes := [boxB "/a/b" "-5"], nextHref := none, nextDisabled := false }

/-- Mock for the C10 counterexample: one entry whose repository link
href is `"/a/"`, so the derived full name is `"a/"`. -/
def envC10x : ScrapeEnv :=
  oneShotEnv { boxes := [boxB "/a/" "3"], nextHref := none, nextDisabled := false }

/-- An all-ok, short search page with the given items. -/
def pageOkOf (its : List CodeSearchItem) : PageResponse :=
  { ok := true, status := 200, statusText := "OK", body := "", total_count := its.length
    items := its }

/-- Mock for C6: page 1 responds 403. -/
def envC6 : SearchEnv :=
  { github_token := some "t"
    pages := fun p =>
      if p = 1 then
        { ok := false, status := 403, statusText := "Forbidden", body := "rate limited"
          total_count := 0, items := [] }
      else pageOkOf []
    detail := fun _ => DetailResult.notOk }

/-- The 100 distinct repository names of page 1 of the C5 mock. -/
def itemsA : List CodeSearchItem :=
  (List.range 100).map (fun i => ⟨String.mk [Char.ofNat (1000 + i)]⟩)

/-- The 40 distinct repository names of page 2 of the C5 mock. -/
def itemsB : List CodeSearchItem :=
  (List.range 40).map (fun i => ⟨String.mk [Char.ofNat (2000 + i)]⟩)

/-- The 140 distinct names of the C5 mock, in encounter order. -/
def namesC5 : List String :=
  (itemsA ++ itemsB).map CodeSearchItem.repository_full_name

/-- Mock for C5: exactly 100 items on page 1 and 40 items on page 2,
all referencing distinct repositories; every detail fetch succeeds. -/
def envC5 : SearchEnv :=
  { github_token := some "t"
    pages := fun p => if p = 1 then pageOkOf itemsA else if p = 2 then pageOkOf itemsB
      else pageOkOf []
    detail := fun n =>
      DetailResult.okData
        { name := n, full_name := n, description := none, stargazers_count := 0
          html_url := n, language := none, created_at := "", updated_at := "" } }

/-- The detail payload served for `"b/y"` in the C7 mock. -/
def repoDataBY : RepoData :=
  { name := "y", full_name := "b/y", description := none, stargazers_count := 3
    html_url := "https://github.com/b/y", language := none, created_at := "c"
    updated_at := "u" }

/-- Mock for C7: one search page naming `a/x` and `b/y`; the detail
fetch of `a/x` throws, that of `b/y` succeeds. -/
def envC7w : SearchEnv :=
  { github_token := some "t"
    pages := fun _ => pageOkOf [⟨"a/x"⟩, ⟨"b/y"⟩]
    detail := fun n => if n = "b/y" then DetailResult.okData repoDataBY
      else DetailResult.thrown }

/-- Mock for the C2/C3 collector witnesses: one search page naming
`a/x` and `b/y`; every detail fetch echoes the queried name, with 2
stars for `b/y` and 1 star otherwise. -/
def envC2w : SearchEnv :=
  { github_token := some "t"
    pages := fun _ => pageOkOf [⟨"a/x"⟩, ⟨"b/y"⟩]
    detail := fun n =>
      DetailResult.okData
        { name := n, full_name := n, description := none
          stargazers_count := if n = "b/y" then 2 else 1, html_url := n, language := none
          created_at := "", updated_at := "" } }


/- ### Lemmas about the stable stars-descending sort -/

theorem JSNum.isFin_iff {x : JSNum} : x.isFin = true ↔ ∃ q, x = JSNum.fin q := by
  cases x <;> simp [JSNum.isFin]

theorem starsCmpKeeps_fin {α : Type} {key : α → JSNum} {a b : α} {qa qb : ℚ}
    (ha : key a = JSNum.fin qa) (hb : key b = JSNum.fin qb) :
    starsCmpKeeps key a b ↔ qb ≤ qa := by
  simp [starsCmpKeeps, ha, hb, JSNum.sub, JSNum.nonPos, sub_nonpos]

theorem jsle_fin {qa qb : ℚ} : (JSNum.fin qb).jsle (JSNum.fin qa) = true ↔ qb ≤ qa := by
  simp [JSNum.jsle]

theorem list_pairwise_imp_mem {α : Type} {R S : α → α → Prop} {l : List α}
    (h : ∀ a b, a ∈ l → b ∈ l → R a b → S a b) (hp : l.Pairwise R) : l.Pairwise S := by
  induction l with
  | nil => exact List.Pairwise.nil
  | cons x t ih =>
    rcases List.pairwise_cons.mp hp with ⟨hx, ht⟩
    refine List.pairwise_cons.mpr ⟨fun y hy => h x y (by simp) (by simp [hy]) (hx y hy), ih ?_ ht⟩
    intro a b ha hb
    exact h a b (by simp [ha]) (by simp [hb])

theorem pairwise_orderedInsert_keeps {α : Type} {key : α → JSNum} (a : α) (l : List α)
    (ha : (key a).isFin = true) (hl : ∀ x ∈ l, (key x).isFin = true)
    (hp : l.Pairwise (starsCmpKeeps key)) :
    (List.orderedInsert (starsCmpKeeps key) a l).Pairwise (starsCmpKeeps key) := by
  induction l with
  | nil => simp [List.orderedInsert]
  | cons b t ih =>
    obtain ⟨qa, hqa⟩ := JSNum.isFin_iff.mp ha
    obtain ⟨qb, hqb⟩ := JSNum.isFin_iff.mp (hl b (by simp))
    rcases List.pairwise_cons.mp hp with ⟨hbt, hpt⟩
    by_cases hab : starsCmpKeeps key a b
    · rw [List.orderedInsert, if_pos hab]
      refine List.pairwise_cons.mpr ⟨?_, hp⟩
      intro y hy
      rcases List.mem_cons.mp hy with rfl | hy
      · exact hab
      · obtain ⟨qy, hqy⟩ := JSNum.isFin_iff.mp (hl y (by simp [hy]))
        have h1 : qb ≤ qa := (starsCmpKeeps_fin hqa hqb).mp hab
        have h2 : qy ≤ qb := (starsCmpKeeps_fin hqb hqy).mp (hbt y hy)
        exact (starsCmpKeeps_fin hqa hqy).mpr (h2.trans h1)
    · rw [List.orderedInsert, if_neg hab]
      refine List.pairwise_cons.mpr ⟨?_, ih (fun x hx => hl x (by simp [hx])) hpt⟩
      intro y hy
      rcases (List.mem_orderedInsert _).mp hy with rfl | hy
      · have hnot : ¬ qb ≤ qa := fun hle => hab ((starsCmpKeeps_fin hqa hqb).mpr hle)
        exact (starsCmpKeeps_fin hqb hqa).mpr (le_of_not_le hnot)
      · exact hbt y hy

theorem pairwise_jsSortByStars {α : Type} (key : α → JSNum) (l : List α)
    (hl : ∀ x ∈ l, (key x).isFin = true) :
    (jsSortByStars key l).Pairwise (starsCmpKeeps key) := by
  induction l with
  | nil => simp [jsSortByStars, List.insertionSort]
  | cons a t ih =>
    have heq : jsSortByStars key (a :: t) =
        List.orderedInsert (starsCmpKeeps key) a (jsSortByStars key t) := rfl
    rw [heq]
    refine pairwise_orderedInsert_keeps a _ (hl a (by simp)) ?_ (ih ?_)
    · intro x hx
      exact hl x (by
        simp [(List.perm_insertionSort (starsCmpKeeps key) t).mem_iff.mp hx])
    · intro x hx
      exact hl x (by simp [hx])

theorem perm_jsSortByStars {α : Type} (key : α → JSNum) (l : List α) :
    List.Perm (jsSortByStars key l) l :=
  List.perm_insertionSort _ l

/- ### Lemmas about the star-count parser -/

theorem jsSignNeg_eq_false {cs : List Char} (h : '-' ∉ cs) : jsSignNeg cs = false := by
  cases cs with
  | nil => rfl
  | cons c t =>
    have hc : c ≠ '-' := fun hc => h (by simp [hc])
    simp [jsSignNeg, hc]

theorem ratFloor_intFloor (q : ℚ) : Rat.floor q = ⌊q⌋ := by
  rw [Rat.floor_def', Rat.floor_def]

theorem half_nonneg_q : (0 : ℚ) ≤ mkRat 1 2 := by
  rw [Rat.mkRat_eq_div]
  norm_num

theorem round_arg_nonneg {q : ℚ} (h : 0 ≤ q) : 0 ≤ Rat.floor (q + mkRat 1 2) := by
  rw [ratFloor_intFloor]
  refine Int.le_floor.mpr ?_
  push_cast
  have h2 := half_nonneg_q
  linarith

theorem ratPow10_nonneg (e : ℤ) : 0 ≤ ratPow10 e := by
  cases e with
  | ofNat n =>
    simp only [ratPow10]
    positivity
  | negSucc n =>
    rw [ratPow10, Rat.mkRat_eq_div]
    positivity

theorem parseDec_nonneg {cs : List Char} {q : ℚ} (h : parseDec cs = some q) : 0 ≤ q := by
  simp only [parseDec] at h
  split at h
  · exact absurd h (by simp)
  · have hq := Option.some.inj h
    rw [← hq]
    refine mul_nonneg ?_ (ratPow10_nonneg _)
    rw [Rat.mkRat_eq_div]
    refine div_nonneg ?_ (by positivity)
    have : (0 : ℤ) ≤ (digitsToNat (cs.takeWhile Char.isDigit) : ℤ) *
        ((10 : ℕ) ^ (fracDigits (cs.dropWhile Char.isDigit)).length : ℕ) +
        (digitsToNat (fracDigits (cs.dropWhile Char.isDigit)) : ℤ) := by positivity
    exact_mod_cast this

theorem jsParseFloat_fin_nonneg {s : String} {q : ℚ} (hm : '-' ∉ s.data)
    (h : jsParseFloat s = JSNum.fin q) : 0 ≤ q := by
  have hm2 : '-' ∉ s.data.dropWhile isJsWs := fun hx => hm ((List.dropWhile_sublist _).mem hx)
  rw [jsParseFloat] at h
  simp only [jsSignNeg_eq_false hm2, Bool.false_eq_true, if_false] at h
  split at h
  · exact absurd h (by simp)
  · split at h
    · exact absurd h (by simp)
    · rename_i q0 hq0
      exact (JSNum.fin.inj h) ▸ parseDec_nonneg hq0

theorem jsParseInt_shape (s : String) :
    jsParseInt s = JSNum.nan ∨ ∃ n : ℤ, jsParseInt s = JSNum.fin ((n : ℤ) : ℚ) := by
  rw [jsParseInt]
  split
  · exact Or.inl rfl
  · refine Or.inr ?_
    by_cases hn : jsSignNeg (s.data.dropWhile isJsWs) = true
    · refine ⟨-(digitsToNat ((jsSignRest (s.data.dropWhile isJsWs)).takeWhile Char.isDigit) : ℤ),
        ?_⟩
      rw [if_pos hn]
      congr 1
    · refine ⟨(digitsToNat ((jsSignRest (s.data.dropWhile isJsWs)).takeWhile Char.isDigit) : ℤ),
        ?_⟩
      rw [if_neg hn]
      congr 1

theorem jsParseInt_nonneg {s : String} (hm : '-' ∉ s.data) :
    jsParseInt s = JSNum.nan ∨
      ∃ n : ℤ, 0 ≤ n ∧ jsParseInt s = JSNum.fin ((n : ℤ) : ℚ) := by
  have hm2 : '-' ∉ s.data.dropWhile isJsWs := fun hx => hm ((List.dropWhile_sublist _).mem hx)
  rw [jsParseInt]
  split
  · exact Or.inl rfl
  · refine Or.inr
      ⟨(digitsToNat ((jsSignRest (s.data.dropWhile isJsWs)).takeWhile Char.isDigit) : ℤ),
        by positivity, ?_⟩
    rw [jsSignNeg_eq_false hm2]
    simp

/- ### Lemmas about the collector -/

theorem fetchDetails_eq (env : SearchEnv) (names : List String) :
    fetchDetails env names = (names.filterMap (detailRec env), names) := by
  suffices h : ∀ (ns : List String) (a1 : List GitHubRepo) (a2 : List String),
      ns.foldl
        (fun acc n =>
          match env.detail n with
          | DetailResult.okData d => (acc.1 ++ [mkRepo d], acc.2 ++ [n])
          | _ => (acc.1, acc.2 ++ [n]))
        (a1, a2) =
      (a1 ++ ns.filterMap (detailRec env), a2 ++ ns) by
    simpa [fetchDetails] using h names [] []
  intro ns
  induction ns with
  | nil => intro a1 a2; simp
  | cons n t ih =>
    intro a1 a2
    cases hd : env.detail n with
    | okData d => simp [List.foldl_cons, hd, ih, detailRec, List.filterMap_cons]
    | thrown => simp [List.foldl_cons, hd, ih, detailRec, List.filterMap_cons]
    | notOk => simp [List.foldl_cons, hd, ih, detailRec, List.filterMap_cons]

theorem searchViemRepos_ok {env : SearchEnv} {reqs : List ℕ} {names : List String}
    (h1 : tokenMissing env = false) (h2 : runPages env 10 1 [] [] = (reqs, names, none)) :
    searchViemRepos env =
      { pageRequests := reqs, detailRequests := names
        written := some (jsSortByStars (fun r => JSNum.fin r.stars)
          (names.filterMap (detailRec env)))
        exitCode := 0, fatalMsg := none } := by
  rw [searchViemRepos, if_neg (by simp [h1]), h2]
  simp [fetchDetails_eq]

theorem searchViemRepos_err {env : SearchEnv} {reqs : List ℕ} {names : List String}
    {st : ℕ} {stext body : String} (h1 : tokenMissing env = false)
    (h2 : runPages env 10 1 [] [] = (reqs, names, some (st, stext, body))) :
    searchViemRepos env =
      { pageRequests := reqs, detailRequests := [], written := none, exitCode := 1
        fatalMsg := some (searchErrMsg st stext body) } := by
  rw [searchViemRepos, if_neg (by simp [h1]), h2]

theorem setAdd_nodup {l : List String} (x : String) (h : l.Nodup) : (setAdd l x).Nodup := by
  rw [setAdd]
  split
  · exact h
  · rename_i hx
    simp [List.nodup_append, h, hx]

theorem setAddAll_nodup {l : List String} (xs : List String) (h : l.Nodup) :
    (setAddAll l xs).Nodup := by
  induction xs generalizing l with
  | nil => exact h
  | cons x t ih => exact ih (setAdd_nodup x h)

theorem runPages_names_nodup (env : SearchEnv) :
    ∀ (fuel page : ℕ) (names : List String) (reqs : List ℕ), names.Nodup →
      ((runPages env fuel page names reqs).2.1).Nodup := by
  intro fuel
  induction fuel with
  | zero => intro page names reqs h; exact h
  | succ n ih =>
    intro page names reqs h
    rw [runPages]
    split
    · exact h
    · split
      · exact setAddAll_nodup _ h
      · exact ih _ _ _ (setAddAll_nodup _ h)

theorem runPages_reqs_len (env : SearchEnv) :
    ∀ (fuel page : ℕ) (names : List String) (reqs : List ℕ),
      ((runPages env fuel page names reqs).1).length ≤ reqs.length + fuel := by
  intro fuel
  induction fuel with
  | zero => intro page names reqs; simp [runPages]
  | succ n ih =>
    intro page names reqs
    rw [runPages]
    split
    · simp
    · split
      · simp
      · calc ((runPages env n (page + 1) _ (reqs ++ [page])).1).length ≤
              (reqs ++ [page]).length + n := ih _ _ _
          _ = reqs.length + (n + 1) := by simp [List.length_append]; ring

theorem mem_filterMap_detailRec {env : SearchEnv}
    (hecho : ∀ n d, env.detail n = DetailResult.okData d → d.full_name = n)
    {names : List String} {x : String}
    (hx : x ∈ (names.filterMap (detailRec env)).map GitHubRepo.full_name) : x ∈ names := by
  rcases List.mem_map.mp hx with ⟨r, hr, hrx⟩
  rcases List.mem_filterMap.mp hr with ⟨n, hn, hdet⟩
  rw [detailRec] at hdet
  revert hdet
  cases hd : env.detail n with
  | okData d =>
    intro hdet
    have hr2 : r = mkRepo d := (Option.some.inj hdet).symm
    have : r.full_name = n := by rw [hr2]; exact hecho n d hd
    rw [← hrx, this]
    exact hn
  | thrown => intro hdet; exact absurd hdet (by simp)
  | notOk => intro hdet; exact absurd hdet (by simp)

theorem filterMap_detailRec_nodup {env : SearchEnv}
    (hecho : ∀ n d, env.detail n = DetailResult.okData d → d.full_name = n)
    {names : List String} (h : names.Nodup) :
    ((names.filterMap (detailRec env)).map GitHubRepo.full_name).Nodup := by
  induction names with
  | nil => simp
  | cons n t ih =>
    rcases List.nodup_cons.mp h with ⟨hn, ht⟩
    cases hd : env.detail n with
    | okData d =>
      have hdr : detailRec env n = some (mkRepo d) := by simp [detailRec, hd]
      rw [List.filterMap_cons_some hdr, List.map_cons, List.nodup_cons]
      refine ⟨?_, ih ht⟩
      intro hmem
      have hfn : (mkRepo d).full_name = n := hecho n d hd
      rw [hfn] at hmem
      exact hn (mem_filterMap_detailRec hecho hmem)
    | thrown =>
      have hdr : detailRec env n = none := by simp [detailRec, hd]
      rw [List.filterMap_cons_none hdr]
      exact ih ht
    | notOk =>
      have hdr : detailRec env n = none := by simp [detailRec, hd]
      rw [List.filterMap_cons_none hdr]
      exact ih ht

/- ### Lemmas about the scraper -/

theorem parseBox_props {box : RepoBox} {r : DependentRepo} (h : parseBox box = some r) :
    r.full_name ≠ "" ∧ r.url = "https://github.com/" ++ r.full_name ∧
      r.name = codeNameRule r.full_name := by
  simp only [parseBox] at h
  split at h
  · exact absurd h (by simp)
  · rename_i hne
    obtain rfl := Option.some.inj h
    refine ⟨?_, rfl, rfl⟩
    intro he
    have he2 : boxFullName box = "" := he
    exact hne (by rw [he2]; rfl)

/- Step equations of the scraping loop, one per way an iteration can
end. -/

theorem scrapeLoop_zero (env : ScrapeEnv) (cap : Option ℕ) (page : ℕ) (urlOpt : Option String)
    (acc : List DependentRepo) (fs : List String) :
    scrapeLoop env cap 0 page urlOpt acc fs = none := rfl

theorem scrapeLoop_noUrl (env : ScrapeEnv) (cap : Option ℕ) (n page : ℕ)
    (acc : List DependentRepo) (fs : List String) :
    scrapeLoop env cap (n + 1) page none acc fs = some (acc, fs) := rfl

theorem scrapeLoop_capStop {env : ScrapeEnv} {cap : Option ℕ} {n page : ℕ} {url : String}
    {acc : List DependentRepo} {fs : List String} (h : capOk cap page = false) :
    scrapeLoop env cap (n + 1) page (some url) acc fs = some (acc, fs) := by
  simp [scrapeLoop, h]

theorem scrapeLoop_thrown {env : ScrapeEnv} {cap : Option ℕ} {n page : ℕ} {url : String}
    {acc : List DependentRepo} {fs : List String} (hcap : capOk cap page = true)
    (hf : env.fetch url = FetchResult.thrown) :
    scrapeLoop env cap (n + 1) page (some url) acc fs = some (acc, fs ++ [url]) := by
  simp [scrapeLoop, hcap, hf]

theorem scrapeLoop_httpError {env : ScrapeEnv} {cap : Option ℕ} {n page st : ℕ} {url : String}
    {acc : List DependentRepo} {fs : List String} (hcap : capOk cap page = true)
    (hf : env.fetch url = FetchResult.httpError st) :
    scrapeLoop env cap (n + 1) page (some url) acc fs = some (acc, fs ++ [url]) := by
  simp [scrapeLoop, hcap, hf]

theorem scrapeLoop_emptyPage {env : ScrapeEnv} {cap : Option ℕ} {n page : ℕ} {url : String}
    {acc : List DependentRepo} {fs : List String} {p : PageHtml} (hcap : capOk cap page = true)
    (hf : env.fetch url = FetchResult.okPage p) (hb : p.boxes.length = 0) :
    scrapeLoop env cap (n + 1) page (some url) acc fs = some (acc, fs ++ [url]) := by
  simp [scrapeLoop, hcap, hf, hb]

theorem scrapeLoop_noNext {env : ScrapeEnv} {cap : Option ℕ} {n page : ℕ} {url : String}
    {acc : List DependentRepo} {fs : List String} {p : PageHtml} (hcap : capOk cap page = true)
    (hf : env.fetch url = FetchResult.okPage p) (hb : p.boxes.length ≠ 0)
    (hnx : p.nextHref = none ∨ ∃ nh, p.nextHref = some nh ∧
      (nh.data.isEmpty || p.nextDisabled) = true) :
    scrapeLoop env cap (n + 1) page (some url) acc fs =
      some (acc ++ p.boxes.filterMap parseBox, fs ++ [url]) := by
  rcases hnx with hnx | ⟨nh, hnx, hdis⟩
  · simp [scrapeLoop, hcap, hf, hb, hnx]
  · simp [scrapeLoop, hcap, hf, hb, hnx, hdis]

theorem scrapeLoop_next {env : ScrapeEnv} {cap : Option ℕ} {n page : ℕ} {url nh : String}
    {acc : List DependentRepo} {fs : List String} {p : PageHtml} (hcap : capOk cap page = true)
    (hf : env.fetch url = FetchResult.okPage p) (hb : p.boxes.length ≠ 0)
    (hnx : p.nextHref = some nh) (hdis : (nh.data.isEmpty || p.nextDisabled) = false) :
    scrapeLoop env cap (n + 1) page (some url) acc fs =
      scrapeLoop env cap n (page + 1) (some (resolveNextUrl nh))
        (acc ++ p.boxes.filterMap parseBox) (fs ++ [url]) := by
  simp [scrapeLoop, hcap, hf, hb, hnx, hdis]

theorem scrapeLoop_acc_prop {P : DependentRepo → Prop}
    (hP : ∀ box r, parseBox box = some r → P r) (env : ScrapeEnv) (cap : Option ℕ) :
    ∀ (fuel page : ℕ) (urlOpt : Option String) (acc : List DependentRepo) (fs : List String)
      (out : List DependentRepo × List String),
      (∀ r ∈ acc, P r) → scrapeLoop env cap fuel page urlOpt acc fs = some out →
      ∀ r ∈ out.1, P r := by
  intro fuel
  induction fuel with
  | zero =>
    intro page urlOpt acc fs out hacc h
    exact absurd h (by simp [scrapeLoop_zero])
  | succ n ih =>
    intro page urlOpt acc fs out hacc h
    have hacc2 : ∀ (p : PageHtml) (r : DependentRepo),
        r ∈ acc ++ p.boxes.filterMap parseBox → P r := by
      intro p r hr
      rcases List.mem_append.mp hr with hr | hr
      · exact hacc r hr
      · rcases List.mem_filterMap.mp hr with ⟨b, _, hb⟩
        exact hP b r hb
    cases urlOpt with
    | none =>
      rw [scrapeLoop_noUrl] at h
      obtain rfl := (Option.some.inj h).symm
      exact hacc
    | some url =>
      by_cases hcap : capOk cap page = true
      case neg =>
        rw [scrapeLoop_capStop (Bool.not_eq_true _ ▸ hcap : capOk cap page = false)] at h
        obtain rfl := (Option.some.inj h).symm
        exact hacc
      case pos =>
        cases hf : env.fetch url with
        | thrown =>
          rw [scrapeLoop_thrown hcap hf] at h
          obtain rfl := (Option.some.inj h).symm
          exact hacc
        | httpError st =>
          rw [scrapeLoop_httpError hcap hf] at h
          obtain rfl := (Option.some.inj h).symm
          exact hacc
        | okPage p =>
          by_cases hb : p.boxes.length = 0
          · rw [scrapeLoop_emptyPage hcap hf hb] at h
            obtain rfl := (Option.some.inj h).symm
            exact hacc
          · cases hnx : p.nextHref with
            | none =>
              rw [scrapeLoop_noNext hcap hf hb (Or.inl hnx)] at h
              obtain rfl := (Option.some.inj h).symm
              exact hacc2 p
            | some nh =>
              by_cases hdis : (nh.data.isEmpty || p.nextDisabled) = true
              · rw [scrapeLoop_noNext hcap hf hb (Or.inr ⟨nh, hnx, hdis⟩)] at h
                obtain rfl := (Option.some.inj h).symm
                exact hacc2 p
              · rw [scrapeLoop_next hcap hf hb hnx (Bool.not_eq_true _ ▸ hdis)] at h
                exact ih _ _ _ _ _ (hacc2 p) h

theorem scrape_eq_some {env : ScrapeEnv} {o r : String} {cap : Option ℕ} {fuel : ℕ}
    {out : List DependentRepo × List String}
    (h : scrapeGitHubDependents env o r cap fuel = some out) :
    ∃ acc fs, scrapeLoop env cap fuel 1 (some (dependentsUrl o r)) [] [] = some (acc, fs) ∧
      out = (jsSortByStars DependentRepo.stars acc, fs) := by
  rw [scrapeGitHubDependents] at h
  revert h
  cases hl : scrapeLoop env cap fuel 1 (some (dependentsUrl o r)) [] [] with
  | none => intro h; exact absurd h (by simp)
  | some p =>
    obtain ⟨acc, fs⟩ := p
    intro h
    exact ⟨acc, fs, rfl, (Option.some.inj h).symm⟩

theorem scrapeGitHubDependents_of_loop {env : ScrapeEnv} {o r : String} {cap : Option ℕ}
    {fuel : ℕ} {acc : List DependentRepo} {fs : List String}
    (h : scrapeLoop env cap fuel 1 (some (dependentsUrl o r)) [] [] = some (acc, fs)) :
    scrapeGitHubDependents env o r cap fuel =
      some (jsSortByStars DependentRepo.stars acc, fs) := by
  rw [scrapeGitHubDependents, h]

/- ### The claims -/

section Claims

attribute [local semireducible] Rat.mul Rat.add Rat.sub Rat.inv

/-- C1: `parseStarCount` follows the spec's parsing rule — amended.  The
code agrees with the spec rule (`parseStarCountSpecRule`) on every
input string whose cleaned form either contains no case-insensitive
`k`/`m` or has a numeric prefix parsing to a finite float; on the
remaining inputs (a `k`/`m` string with an unparseable or infinite
prefix) the code returns NaN/±Infinity where the spec rule demands 0.
All five concrete example values of the claim hold as stated. -/
theorem c1_parseStarCount_follows_spec_rule :
    (∀ s : String,
        ((containsLower (jsStripCommasWs s) 'k' = false ∧
            containsLower (jsStripCommasWs s) 'm' = false) ∨
          (jsParseFloat (jsStripCommasWs s)).isFin = true) →
        parseStarCount s = JSNum.fin (parseStarCountSpecRule s)) ∧
      parseStarCount "1,234" = JSNum.fin 1234 ∧
      parseStarCount "1.2k" = JSNum.fin 1200 ∧
      parseStarCount "3m" = JSNum.fin 3000000 ∧
      parseStarCount "" = JSNum.fin 0 ∧
      parseStarCount "abc" = JSNum.fin 0 := by
  refine ⟨?_, by decide, by decide, by decide, by decide, by decide⟩
  intro s h
  by_cases hk : containsLower (jsStripCommasWs s) 'k' = true
  · have hfin : (jsParseFloat (jsStripCommasWs s)).isFin = true := by
      rcases h with ⟨h1, _⟩ | h2
      · rw [hk] at h1
        exact absurd h1 (by simp)
      · exact h2
    obtain ⟨q, hq⟩ := JSNum.isFin_iff.mp hfin
    simp [parseStarCount, parseStarCountSpecRule, hk, hq, JSNum.mulPos, JSNum.round]
  · by_cases hm : containsLower (jsStripCommasWs s) 'm' = true
    · have hfin : (jsParseFloat (jsStripCommasWs s)).isFin = true := by
        rcases h with ⟨_, h1⟩ | h2
        · rw [hm] at h1
          exact absurd h1 (by simp)
        · exact h2
      obtain ⟨q, hq⟩ := JSNum.isFin_iff.mp hfin
      simp [parseStarCount, parseStarCountSpecRule, hk, hm, hq, JSNum.mulPos, JSNum.round]
    · rcases jsParseInt_shape (jsStripCommasWs s) with hpi | ⟨n, hpi⟩
      · simp [parseStarCount, parseStarCountSpecRule, hk, hm, hpi]
      · simp [parseStarCount, parseStarCountSpecRule, hk, hm, hpi]

/-- C1 counterexample: on the input `"k"` the cleaned string contains a
`k` but `parseFloat` yields NaN, so the code returns NaN while the
spec's rule ("any unparseable result yields 0") demands 0. -/
theorem c1_counterexample :
    parseStarCount "k" = JSNum.nan ∧ parseStarCountSpecRule "k" = 0 ∧
      JSNum.nan ≠ JSNum.fin (parseStarCountSpecRule "k") := by
  refine ⟨by decide, by decide, by decide⟩

/-- C1 witness: the amended theorem applied at the concrete input
`"1.2k"`. -/
theorem c1_witness : parseStarCount "1.2k" = JSNum.fin (parseStarCountSpecRule "1.2k") :=
  c1_parseStarCount_follows_spec_rule.1 "1.2k" (Or.inr (by decide))

/-- C4: parsed star values are non-negative integers — amended.  For
every rendered star-count string whose cleaned form contains no `'-'`
and (when it mentions `k`/`m`) has a finitely parsing numeric prefix,
`parseStarCount` returns a non-negative integer, and `"1.2k"` rounds to
1200; the original claim is refuted by the star text `"-5"`, which
parses to the negative value −5 (see the counterexample). -/
theorem c4_stars_nonneg :
    (∀ s : String,
        ((containsLower (jsStripCommasWs s) 'k' = false ∧
            containsLower (jsStripCommasWs s) 'm' = false) ∨
          (jsParseFloat (jsStripCommasWs s)).isFin = true) →
        '-' ∉ (jsStripCommasWs s).data →
        ∃ n : ℤ, 0 ≤ n ∧ parseStarCount s = JSNum.fin ((n : ℤ) : ℚ)) ∧
      parseStarCount "1.2k" = JSNum.fin 1200 := by
  refine ⟨?_, by decide⟩
  intro s h hminus
  by_cases hk : containsLower (jsStripCommasWs s) 'k' = true
  · have hfin : (jsParseFloat (jsStripCommasWs s)).isFin = true := by
      rcases h with ⟨h1, _⟩ | h2
      · rw [hk] at h1
        exact absurd h1 (by simp)
      · exact h2
    obtain ⟨q, hq⟩ := JSNum.isFin_iff.mp hfin
    have hq0 : 0 ≤ q := jsParseFloat_fin_nonneg hminus hq
    refine ⟨Rat.floor (q * 1000 + mkRat 1 2), round_arg_nonneg (by positivity), ?_⟩
    simp [parseStarCount, hk, hq, JSNum.mulPos, JSNum.round]
  · by_cases hm : containsLower (jsStripCommasWs s) 'm' = true
    · have hfin : (jsParseFloat (jsStripCommasWs s)).isFin = true := by
        rcases h with ⟨_, h1⟩ | h2
        · rw [hm] at h1
          exact absurd h1 (by simp)
        · exact h2
      obtain ⟨q, hq⟩ := JSNum.isFin_iff.mp hfin
      have hq0 : 0 ≤ q := jsParseFloat_fin_nonneg hminus hq
      refine ⟨Rat.floor (q * 1000000 + mkRat 1 2), round_arg_nonneg (by positivity), ?_⟩
      simp [parseStarCount, hk, hm, hq, JSNum.mulPos, JSNum.round]
    · rcases jsParseInt_nonneg hminus with hpi | ⟨n, hn0, hpi⟩
      · refine ⟨0, le_refl 0, ?_⟩
        simp [parseStarCount, hk, hm, hpi]
      · refine ⟨n, hn0, ?_⟩
        simp [parseStarCount, hk, hm, hpi]

/-- C4 counterexample: a scraper run over a mocked page whose rendered
star text is `"-5"` produces an output record with the negative stars
value −5, refuting "every record in any produced output list has a
non-negative stars field". -/
theorem c4_counterexample :
    (scrapeGitHubDependents envC4x "o" "r" none 5).map
        (fun out => out.1.map DependentRepo.stars) =
      some [JSNum.fin (-5)] ∧ (-5 : ℚ) < 0 := by
  refine ⟨by decide, by decide⟩

/-- C4 witness: the amended theorem applied at the concrete star text
`"1.2k"`. -/
theorem c4_witness :
    ∃ n : ℤ, 0 ≤ n ∧ parseStarCount "1.2k" = JSNum.fin ((n : ℤ) : ℚ) :=
  c4_stars_nonneg.1 "1.2k" (Or.inr (by decide)) (by decide)

/-- C2: output lists are non-increasing in stars — amended.  Every list
the collector writes is non-increasing in stars; every list the scraper
writes whose records all carry a finite stars value is non-increasing
in stars (under the JavaScript comparison, whose `NaN` is below
nothing).  The original claim, quantified over all mocked responses, is
refuted by a scraper run whose page renders a star text parsing to NaN
(see the counterexample). -/
theorem c2_sorted_desc :
    (∀ (env : SearchEnv) (l : List GitHubRepo), (searchViemRepos env).written = some l →
        List.Chain' (fun a b => b.stars ≤ a.stars) l) ∧
      (∀ (env : ScrapeEnv) (o r : String) (cap : Option ℕ) (fuel : ℕ)
          (out : List DependentRepo × List String),
        scrapeGitHubDependents env o r cap fuel = some out →
        (∀ x ∈ out.1, (x.stars).isFin = true) →
        List.Chain' (fun a b => JSNum.jsle b.stars a.stars = true) out.1) := by
  constructor
  · intro env l hw
    by_cases ht : tokenMissing env = true
    · rw [searchViemRepos, if_pos ht] at hw
      exact absurd hw (by simp)
    · have ht' : tokenMissing env = false := by simpa using ht
      rcases hrp : runPages env 10 1 [] [] with ⟨reqs, names, err⟩
      cases err with
      | some sb =>
        obtain ⟨st, stext, body⟩ := sb
        rw [searchViemRepos_err ht' hrp] at hw
        exact absurd hw (by simp)
      | none =>
        rw [searchViemRepos_ok ht' hrp] at hw
        obtain rfl := (Option.some.inj hw).symm
        have hp := pairwise_jsSortByStars (fun r => JSNum.fin r.stars)
          (names.filterMap (detailRec env)) (fun x _ => rfl)
        exact (hp.imp fun hab => (starsCmpKeeps_fin rfl rfl).mp hab).chain'
  · intro env o r cap fuel out hs hfin
    obtain ⟨acc, fs, hloop, rfl⟩ := scrape_eq_some hs
    have hacc : ∀ x ∈ acc, (DependentRepo.stars x).isFin = true := fun x hx =>
      hfin x ((perm_jsSortByStars DependentRepo.stars acc).mem_iff.mpr hx)
    have hp := pairwise_jsSortByStars DependentRepo.stars acc hacc
    refine (list_pairwise_imp_mem ?_ hp).chain'
    intro a b ha hb hab
    obtain ⟨qa, hqa⟩ := JSNum.isFin_iff.mp (hfin a ha)
    obtain ⟨qb, hqb⟩ := JSNum.isFin_iff.mp (hfin b hb)
    rw [hqa, hqb, jsle_fin]
    exact (starsCmpKeeps_fin hqa hqb).mp hab

/-- C2 counterexample: with a mocked page rendering the star texts
`"k"` (NaN) and `"5"`, the scraper's written list has the stars
sequence `[5, NaN]`, which is not non-increasing — no JavaScript
comparison with NaN holds. -/
theorem c2_counterexample :
    (scrapeGitHubDependents envC2x "o" "r" none 5).map
        (fun out => out.1.map DependentRepo.stars) =
      some [JSNum.fin 5, JSNum.nan] ∧
      ¬ List.Chain' (fun a b : JSNum => JSNum.jsle b a = true) [JSNum.fin 5, JSNum.nan] := by
  refine ⟨by decide, fun h => ?_⟩
  exact absurd (List.chain'_cons.mp h).1 (by decide)

/-- C2 witness: the amended theorem applied to a concrete collector run
and a concrete scraper run. -/
theorem c2_witness :
    List.Chain' (fun a b : GitHubRepo => b.stars ≤ a.stars)
        [⟨"b/y", "b/y", none, 2, "b/y", none, "", ""⟩,
         ⟨"a/x", "a/x", none, 1, "a/x", none, "", ""⟩] ∧
      List.Chain' (fun a b : DependentRepo => JSNum.jsle b.stars a.stars = true)
        [⟨"r2", "o2/r2", none, JSNum.fin 12, "https://github.com/o2/r2", none⟩,
         ⟨"r1", "o1/r1", none, JSNum.fin 5, "https://github.com/o1/r1", none⟩] :=
  ⟨c2_sorted_desc.1 envC2w _ (by decide),
    c2_sorted_desc.2 envC9a "o" "r" none 5
      ([⟨"r2", "o2/r2", none, JSNum.fin 12, "https://github.com/o2/r2", none⟩,
        ⟨"r1", "o1/r1", none, JSNum.fin 5, "https://github.com/o1/r1", none⟩],
       [dependentsUrl "o" "r"]) (by decide) (by decide)⟩

/-- C3: no two output records share a `full_name` — amended.  The
collector's queried-name set is duplicate-free for every input, and its
written output has pairwise-distinct `full_name`s whenever the mocked
detail endpoint echoes each queried repository's own full name.  The
original claim, quantified over all mocked responses, is refuted by the
scraper (which deduplicates nothing) on a page listing the same
repository twice (see the counterexample). -/
theorem c3_unique_full_name :
    (∀ env : SearchEnv, ((runPages env 10 1 [] []).2.1).Nodup) ∧
      (∀ (env : SearchEnv) (l : List GitHubRepo),
        (∀ n d, env.detail n = DetailResult.okData d → d.full_name = n) →
        (searchViemRepos env).written = some l →
        (l.map GitHubRepo.full_name).Nodup) := by
  constructor
  · intro env
    exact runPages_names_nodup env 10 1 [] [] (by simp)
  · intro env l hecho hw
    by_cases ht : tokenMissing env = true
    · rw [searchViemRepos, if_pos ht] at hw
      exact absurd hw (by simp)
    · have ht' : tokenMissing env = false := by simpa using ht
      rcases hrp : runPages env 10 1 [] [] with ⟨reqs, names, err⟩
      cases err with
      | some sb =>
        obtain ⟨st, stext, body⟩ := sb
        rw [searchViemRepos_err ht' hrp] at hw
        exact absurd hw (by simp)
      | none =>
        rw [searchViemRepos_ok ht' hrp] at hw
        obtain rfl := (Option.some.inj hw).symm
        have hnames : names.Nodup := by
          have h2 := runPages_names_nodup env 10 1 [] [] (by simp)
          rw [hrp] at h2
          exact h2
        have hnd := filterMap_detailRec_nodup hecho hnames
        have hperm := List.Perm.map GitHubRepo.full_name
          (perm_jsSortByStars (fun r => JSNum.fin r.stars) (names.filterMap (detailRec env)))
        exact hperm.nodup_iff.mpr hnd

/-- C3 counterexample: a scraper run over a mocked page listing the
repository `a/b` twice writes two records with the same `full_name`. -/
theorem c3_counterexample :
    (scrapeGitHubDependents envC3x "o" "r" none 5).map
        (fun out => out.1.map DependentRepo.full_name) =
      some ["a/b", "a/b"] ∧ ¬ (["a/b", "a/b"] : List String).Nodup := by
  refine ⟨by decide, by decide⟩

/-- C3 witness: the amended theorem applied to a concrete collector run
with an echoing detail endpoint. -/
theorem c3_witness :
    ((runPages envC6 10 1 [] []).2.1).Nodup ∧
      ((([⟨"b/y", "b/y", none, 2, "b/y", none, "", ""⟩,
          ⟨"a/x", "a/x", none, 1, "a/x", none, "", ""⟩] : List GitHubRepo)).map
          GitHubRepo.full_name).Nodup :=
  ⟨c3_unique_full_name.1 envC6,
    c3_unique_full_name.2 envC2w _
      (fun n d h => by
        obtain rfl := DetailResult.okData.inj h
        rfl)
      (by decide)⟩

set_option maxRecDepth 8000 in
/-- C5: the collector pages at most 10 times with page size 100 and
stops as soon as a page is short.  Every run issues at most 10 page
requests; on the mocked endpoint returning 100 items on page 1 and 40
distinct items on page 2, exactly the two page requests 1 and 2 are
issued (40 < 100 signals the last page), and then exactly one detail
request per distinct repository full name found, each name once. -/
theorem c5_paging :
    (∀ env : SearchEnv, ((searchViemRepos env).pageRequests).length ≤ 10) ∧
      (searchViemRepos envC5).pageRequests = [1, 2] ∧
      (searchViemRepos envC5).detailRequests = namesC5 ∧
      namesC5.Nodup := by
  refine ⟨?_, by decide, by decide, by decide⟩
  intro env
  rw [searchViemRepos]
  split
  · simp
  · rcases hrp : runPages env 10 1 [] [] with ⟨reqs, names, err⟩
    have hlen := runPages_reqs_len env 10 1 [] []
    rw [hrp] at hlen
    simp only [List.length_nil, Nat.zero_add] at hlen
    cases err with
    | some sb =>
      obtain ⟨st, stext, body⟩ := sb
      simpa using hlen
    | none => simpa using hlen

/-- C6: a non-success response on any search page makes the collector
run fatal — confirmed.  If the token is present and the paging loop
meets a non-success response, the run exits 1, writes no output file,
issues no detail request, and the fatal message embeds the triggering
status, status text and body; on the mocked endpoint whose page 1
returns 403, the run is fatal with nothing written. -/
theorem c6_fatal_on_page_error :
    (∀ (env : SearchEnv) (reqs : List ℕ) (names : List String) (st : ℕ) (stext body : String),
        tokenMissing env = false →
        runPages env 10 1 [] [] = (reqs, names, some (st, stext, body)) →
        searchViemRepos env =
          { pageRequests := reqs, detailRequests := [], written := none, exitCode := 1
            fatalMsg := some (searchErrMsg st stext body) }) ∧
      searchViemRepos envC6 =
        { pageRequests := [1], detailRequests := [], written := none, exitCode := 1
          fatalMsg := some (searchErrMsg 403 "Forbidden" "rate limited") } :=
  ⟨fun _ _ _ _ _ _ h1 h2 => searchViemRepos_err h1 h2, by decide⟩

/-- C6 witness: the general half applied at the mocked 403 endpoint. -/
theorem c6_witness :
    searchViemRepos envC6 =
      { pageRequests := [1], detailRequests := [], written := none, exitCode := 1
        fatalMsg := some (searchErrMsg 403 "Forbidden" "rate limited") } :=
  c6_fatal_on_page_error.1 envC6 [1] [] 403 "Forbidden" "rate limited" (by decide) (by decide)

/-- C7: an individual detail-fetch failure never aborts the collector —
confirmed.  Whenever the paging loop succeeds, the run exits 0, every
distinct repository name is detail-fetched (failures included), and the
sorted output written consists of exactly the records of the successful
fetches: a failing repository is omitted, all others are kept. -/
theorem c7_detail_failures_skipped :
    ∀ (env : SearchEnv) (reqs : List ℕ) (names : List String),
      tokenMissing env = false →
      runPages env 10 1 [] [] = (reqs, names, none) →
      (searchViemRepos env).exitCode = 0 ∧
      (searchViemRepos env).detailRequests = names ∧
      (searchViemRepos env).written =
        some (jsSortByStars (fun r => JSNum.fin r.stars) (names.filterMap (detailRec env))) := by
  intro env reqs names h1 h2
  rw [searchViemRepos_ok h1 h2]
  exact ⟨rfl, rfl, rfl⟩

/-- C7 witness: the theorem applied at the mocked endpoint where the
detail fetch of `a/x` throws and that of `b/y` succeeds. -/
theorem c7_witness :
    (searchViemRepos envC7w).exitCode = 0 ∧
      (searchViemRepos envC7w).detailRequests = ["a/x", "b/y"] ∧
      (searchViemRepos envC7w).written =
        some (jsSortByStars (fun r => JSNum.fin r.stars)
          ((["a/x", "b/y"] : List String).filterMap (detailRec envC7w))) :=
  c7_detail_failures_skipped envC7w [1] ["a/x", "b/y"] (by decide) (by decide)

/-- C8: a non-success dependents-page response is not fatal to the
scraper — confirmed.  An iteration meeting a non-success status returns
the records accumulated so far with no further fetch; every terminating
loop outcome is sorted by stars descending and written; on the mocked
two-page sequence whose page 2 returns 500, the page-1 records are
sorted and written. -/
theorem c8_scraper_error_not_fatal :
    (∀ (env : ScrapeEnv) (cap : Option ℕ) (n page st : ℕ) (url : String)
        (acc : List DependentRepo) (fs : List String),
        capOk cap page = true → env.fetch url = FetchResult.httpError st →
        scrapeLoop env cap (n + 1) page (some url) acc fs = some (acc, fs ++ [url])) ∧
      (∀ (env : ScrapeEnv) (o r : String) (cap : Option ℕ) (fuel : ℕ)
          (acc : List DependentRepo) (fs : List String),
        scrapeLoop env cap fuel 1 (some (dependentsUrl o r)) [] [] = some (acc, fs) →
        scrapeGitHubDependents env o r cap fuel =
          some (jsSortByStars DependentRepo.stars acc, fs)) ∧
      scrapeGitHubDependents envC8x "o" "r" none 5 =
        some ([⟨"r2", "o2/r2", none, JSNum.fin 3, "https://github.com/o2/r2", none⟩,
               ⟨"r1", "o1/r1", none, JSNum.fin 1, "https://github.com/o1/r1", none⟩],
              [dependentsUrl "o" "r", "https://github.com/p2"]) :=
  ⟨fun _ _ _ _ _ _ _ _ hcap hf => scrapeLoop_httpError hcap hf,
    fun _ _ _ _ _ _ _ h => scrapeGitHubDependents_of_loop h, by decide⟩

/-- C8 witness: both general halves applied at the mocked two-page
sequence whose page 2 returns 500. -/
theorem c8_witness :
    scrapeLoop envC8x none 4 2 (some "https://github.com/p2")
        [⟨"r1", "o1/r1", none, JSNum.fin 1, "https://github.com/o1/r1", none⟩,
         ⟨"r2", "o2/r2", none, JSNum.fin 3, "https://github.com/o2/r2", none⟩]
        [dependentsUrl "o" "r"] =
      some ([⟨"r1", "o1/r1", none, JSNum.fin 1, "https://github.com/o1/r1", none⟩,
             ⟨"r2", "o2/r2", none, JSNum.fin 3, "https://github.com/o2/r2", none⟩],
            [dependentsUrl "o" "r", "https://github.com/p2"]) ∧
      scrapeGitHubDependents envC8x "o" "r" none 5 =
        some (jsSortByStars DependentRepo.stars
            [⟨"r1", "o1/r1", none, JSNum.fin 1, "https://github.com/o1/r1", none⟩,
             ⟨"r2", "o2/r2", none, JSNum.fin 3, "https://github.com/o2/r2", none⟩],
          [dependentsUrl "o" "r", "https://github.com/p2"]) :=
  ⟨c8_scraper_error_not_fatal.1 envC8x none 3 2 500 "https://github.com/p2" _ _
      (by decide) (by decide),
    c8_scraper_error_not_fatal.2.1 envC8x "o" "r" none 5 _ _ (by decide)⟩

/-- C9: the scraper never fetches past a terminal page — confirmed.  An
iteration whose fetched page has an absent/empty/disabled "Next"
control parses all of the page's entries and performs no further fetch;
an iteration whose fetched page has zero entries stops immediately; the
mocked single page without a Next control yields exactly one fetch and
a sorted written output, and the mocked two-page sequence whose page 2
is empty yields no third fetch. -/
theorem c9_terminal_page_stops :
    (∀ (env : ScrapeEnv) (cap : Option ℕ) (n page : ℕ) (url : String)
        (acc : List DependentRepo) (fs : List String) (p : PageHtml),
        capOk cap page = true → env.fetch url = FetchResult.okPage p →
        p.boxes.length ≠ 0 →
        (p.nextHref = none ∨ ∃ nh, p.nextHref = some nh ∧
          (nh.data.isEmpty || p.nextDisabled) = true) →
        scrapeLoop env cap (n + 1) page (some url) acc fs =
          some (acc ++ p.boxes.filterMap parseBox, fs ++ [url])) ∧
      (∀ (env : ScrapeEnv) (cap : Option ℕ) (n page : ℕ) (url : String)
          (acc : List DependentRepo) (fs : List String) (p : PageHtml),
        capOk cap page = true → env.fetch url = FetchResult.okPage p →
        p.boxes.length = 0 →
        scrapeLoop env cap (n + 1) page (some url) acc fs = some (acc, fs ++ [url])) ∧
      scrapeGitHubDependents envC9a "o" "r" none 5 =
        some ([⟨"r2", "o2/r2", none, JSNum.fin 12, "https://github.com/o2/r2", none⟩,
               ⟨"r1", "o1/r1", none, JSNum.fin 5, "https://github.com/o1/r1", none⟩],
              [dependentsUrl "o" "r"]) ∧
      scrapeGitHubDependents envC9b "o" "r" none 5 =
        some ([⟨"r1", "o1/r1", none, JSNum.fin 5, "https://github.com/o1/r1", none⟩],
              [dependentsUrl "o" "r", "https://github.com/p2"]) :=
  ⟨fun _ _ _ _ _ _ _ _ hcap hf hb hnx => scrapeLoop_noNext hcap hf hb hnx,
    fun _ _ _ _ _ _ _ _ hcap hf hb => scrapeLoop_emptyPage hcap hf hb,
    by decide, by decide⟩

/-- C9 witness: the two general halves applied at the mocked pages of
the two scenarios. -/
theorem c9_witness :
    scrapeLoop envC9a none 5 1 (some (dependentsUrl "o" "r")) [] [] =
      some ([] ++ pageC9a.boxes.filterMap parseBox, [] ++ [dependentsUrl "o" "r"]) ∧
      scrapeLoop envC9b none 4 2 (some "https://github.com/p2")
          [⟨"r1", "o1/r1", none, JSNum.fin 5, "https://github.com/o1/r1", none⟩]
          [dependentsUrl "o" "r"] =
        some ([⟨"r1", "o1/r1", none, JSNum.fin 5, "https://github.com/o1/r1", none⟩],
          [dependentsUrl "o" "r"] ++ ["https://github.com/p2"]) :=
  ⟨c9_terminal_page_stops.1 envC9a none 4 1 (dependentsUrl "o" "r") [] [] pageC9a
      (by decide) (by decide) (by decide) (Or.inl (by decide)),
    c9_terminal_page_stops.2.1 envC9b none 3 2 "https://github.com/p2"
      [⟨"r1", "o1/r1", none, JSNum.fin 5, "https://github.com/o1/r1", none⟩]
      [dependentsUrl "o" "r"] pageC9b2 (by decide) (by decide) (by decide)⟩

/-- C10: shape of every scraped record — amended.  Every record a
terminating scraper run writes has a non-empty `full_name`, a `url`
equal to `"https://github.com/"` concatenated with `full_name`, and a
`name` equal to the segment of `full_name` between the first and second
`'/'` except that the code falls back to the whole `full_name` not only
when `full_name` contains no `'/'` but also when that segment is empty
(`name || fullName`); the original claim's name rule is refuted at the
full name `"a/"` (see the counterexample). -/
theorem c10_record_shape :
    ∀ (env : ScrapeEnv) (o r : String) (cap : Option ℕ) (fuel : ℕ)
      (out : List DependentRepo × List String),
      scrapeGitHubDependents env o r cap fuel = some out →
      ∀ x ∈ out.1, x.full_name ≠ "" ∧ x.url = "https://github.com/" ++ x.full_name ∧
        x.name = codeNameRule x.full_name := by
  intro env o r cap fuel out hs x hx
  obtain ⟨acc, fs, hloop, rfl⟩ := scrape_eq_some hs
  have hx2 : x ∈ acc := (perm_jsSortByStars DependentRepo.stars acc).mem_iff.mp hx
  exact scrapeLoop_acc_prop (fun _ _ h => parseBox_props h) env cap fuel 1 _ [] []
    (acc, fs) (by simp) hloop x hx2

/-- C10 counterexample: a mocked page whose repository link href is
`"/a/"` yields the record full name `"a/"` with `name = "a/"`, while
the claim's rule (the segment between the first and second `'/'`)
demands the empty string there. -/
theorem c10_counterexample :
    (scrapeGitHubDependents envC10x "o" "r" none 5).map
        (fun out => out.1.map (fun x => (x.name, x.full_name))) =
      some [("a/", "a/")] ∧
      claimNameRule "a/" = "" ∧ ("a/" : String) ≠ "" := by
  refine ⟨by decide, by decide, by decide⟩

/-- C10 witness: the amended theorem applied to a concrete scraper run
and its first record. -/
theorem c10_witness :
    (⟨"r2", "o2/r2", none, JSNum.fin 12, "https://github.com/o2/r2", none⟩ :
        DependentRepo).full_name ≠ "" ∧
      (⟨"r2", "o2/r2", none, JSNum.fin 12, "https://github.com/o2/r2", none⟩ :
          DependentRepo).url =
        "https://github.com/" ++
          (⟨"r2", "o2/r2", none, JSNum.fin 12, "https://github.com/o2/r2", none⟩ :
            DependentRepo).full_name ∧
      (⟨"r2", "o2/r2", none, JSNum.fin 12, "https://github.com/o2/r2", none⟩ :
          DependentRepo).name =
        codeNameRule
          (⟨"r2", "o2/r2", none, JSNum.fin 12, "https://github.com/o2/r2", none⟩ :
            DependentRepo).full_name :=
  c10_record_shape envC9a "o" "r" none 5
    ([⟨"r2", "o2/r2", none, JSNum.fin 12, "https://github.com/o2/r2", none⟩,
      ⟨"r1", "o1/r1", none, JSNum.fin 5, "https://github.com/o1/r1", none⟩],
     [dependentsUrl "o" "r"]) (by decide) _ (by decide)

end Claims
